import Mathlib

/-!
Shallow embedding of the cycle state machine of cicd-branch-tool.js
(CI/CD branch management tool).

Modelling conventions:
* Dates are modelled as calendar-day numbers (Int).  The tool parses and
  formats date strings through a fixed bijective format (yyyy-MM-dd), so
  all date reasoning in the source is day arithmetic on parsed dates;
  fmtDay stands for format(date, dateFormat) and produces the string that
  is spliced into branch names.
* Branch names are Strings; a JavaScript null branch name is Option.none.
* JavaScript truthiness of a string s is (s does not equal the empty string);
  truthiness of an object field that may be absent is Option.isSome.
* Backend effects (git) are modelled as a trace of issued calls (BCall)
  plus a pure Backend record describing the outcomes the git layer would
  report; process.exit is modelled as an explicit exit status.
-/

/-- format(date, dateFormat) on a day number: the date string used inside
branch names.  The format is bijective on days, so toString of the day
number is a faithful stand-in. -/
def fmtDay (d : Int) : String := toString d

/-- Shape returned by GitOperations.getLatestCommitInfo in the source. -/
structure CommitInfo where
  hash : String
  date : String
  message : String
  refs : String
  body : String
  author_name : String
  author_email : String
  deriving DecidableEq

/-- Convenience constructor for commit fingerprints in concrete examples. -/
def mkCommit (h : String) : CommitInfo :=
  { hash := h, date := "", message := "", refs := "", body := "",
    author_name := "", author_email := "" }

/-- In-memory environment slot (the unified object form produced by
normalizeStatusFormat): branch, optional commit fingerprint, and the
"latest" field that updateBranchStatus writes on the old-format path. -/
structure BranchSlot where
  branch : Option String := none
  commit : Option CommitInfo := none
  latest : Option CommitInfo := none
  deriving DecidableEq

/-- Entry of status.branches: a created date-branch plus its creation
timestamp (modelled in the same day units as dates). -/
structure TrackedBranch where
  branch : String
  time : Int
  deriving DecidableEq

/-- One slot of the on-disk status JSON: legacy flat string, object with
branch (and optional commit), or absent. -/
inductive RawSlot where
  | str (s : String)
  | obj (branch : Option String) (commit : Option CommitInfo)
  | missing
  deriving DecidableEq

/-- On-disk status file contents (the fields the core reads). -/
structure RawStatus where
  base : RawSlot := .missing
  uat : RawSlot := .missing
  pre : RawSlot := .missing
  pro : RawSlot := .missing
  lastCycleDate : Option Int := none
  aheadCycleDate : Option Int := none
  branches : Option (List TrackedBranch) := none
  deriving DecidableEq

/-- In-memory status (output of normalizeStatusFormat).  fullStatus models
the _fullStatus field kept on the new-format path for faithful save. -/
structure Status where
  base : BranchSlot := {}
  uat : BranchSlot := {}
  pre : BranchSlot := {}
  pro : BranchSlot := {}
  lastCycleDate : Option Int := none
  aheadCycleDate : Option Int := none
  branches : Option (List TrackedBranch) := none
  fullStatus : Option RawStatus := none
  deriving DecidableEq

/-- Configuration surface consumed by the core (DEFAULT_CONFIG defaults). -/
structure Config where
  baseBranch : String := "base"
  uatBranch : String := "uat"
  preBranch : String := "pre"
  proBranch : String := "pro"
  remoteName : String := "origin"
  cycleDays : Int := 14
  branchPrefix : String := ""
  autoRemoveBranches : Bool := false
  branchRetentionCycles : Int := 3
  deriving DecidableEq

/-- JavaScript truthiness filter on a branch-name value: getBranchName
returns the stored branch only when it is a truthy (non-empty) string. -/
def jsBranchVal : Option String → Option String
  | some b => if b = "" then none else some b
  | none => none

/-- getBranchName on an in-memory slot object: returns .branch when truthy,
otherwise null. -/
def getBranchName (branchStatus : BranchSlot) : Option String :=
  jsBranchVal branchStatus.branch

/-- extractBranchLatestCommit: the commit field of an object slot, else null. -/
def extractBranchLatestCommit (branchStatus : BranchSlot) : Option CommitInfo :=
  branchStatus.commit

/-- updateBranchStatus(currentStatus, newBranchName, commitInfo): when the
current slot has a truthy branch (new format) it is spread and updated,
keeping the old commit when no new one is given; otherwise a fresh object
is built whose optional commit info lands in the "latest" field (as in the
source). -/
def updateBranchStatus (currentStatus : BranchSlot) (newBranchName : Option String)
    (commitInfo : Option CommitInfo) : BranchSlot :=
  match currentStatus.branch with
  | some b =>
    if b = "" then
      { branch := newBranchName, commit := none, latest := commitInfo }
    else
      { currentStatus with
        branch := newBranchName,
        commit := match commitInfo with
          | some ci => some ci
          | none => currentStatus.commit }
  | none => { branch := newBranchName, commit := none, latest := commitInfo }

/-- formatBranchName(config, branch): prepend the configured prefix when it
is truthy (non-empty). -/
def formatBranchName (config : Config) (branch : String) : String :=
  if config.branchPrefix = "" then branch else config.branchPrefix ++ "/" ++ branch

/-- ERROR_CODES table of the source, as (name, value) pairs. -/
def ERROR_CODES : List (String × Int) :=
  [("INVALID_COMMAND", 1), ("FILE_NOT_FOUND", 2), ("GIT_OPERATION_FAILED", 3),
   ("NOT_EXECUTION_DAY", 4), ("MISSING_BRANCHES", 5), ("CONFIG_ERROR", 6),
   ("INVALID_DATE", 7)]

/-- JavaScript property access ERROR_CODES.name: none models undefined. -/
def errorCode (name : String) : Option Int := ERROR_CODES.lookup name

/-- Node.js process.exit(code): an undefined argument exits with status 0. -/
def nodeExitStatus (code : Option Int) : Int := code.getD 0

/-- calculateCycleDateInfo: the cycle boundary (current, next) for the given
reference day.  With a recorded lastCycleDate the boundary snaps back to
the most recent multiple of cycleDays after it (Math.floor on the real
quotient is floor division); on a first run the supplied day itself is the
boundary. -/
def calculateCycleDateInfo (config : Config) (status : Status) (currentDate : Int)
    (cycleDays : Int) : Int × Int :=
  match status.lastCycleDate with
  | some last =>
    let dayDiff := currentDate - last
    let days := (Int.fdiv dayDiff cycleDays) * cycleDays
    (last + days, last + days + cycleDays)
  | none => (currentDate, currentDate + cycleDays)

/-- isExecutionDay: first run (no lastCycleDate) always executes, otherwise
execute when at least cycleDays calendar days have elapsed. -/
def isExecutionDay (currentDate : Int) (cycleDays : Int)
    (lastCycleDate : Option Int) : Bool :=
  match lastCycleDate with
  | none => true
  | some last => cycleDays ≤ currentDate - last

/-- Result object of updateNextCycleBranches. -/
structure NextCycleBranches where
  aheadCycleDate : Int
  nextCycleDate : Int
  newBaseBranch : String
  currentBranch : Option String
  uatSourceBranch : Option String
  proSourceBranch : Option String
  deriving DecidableEq

/-- updateNextCycleBranches: computes the rotation targets and applies the
chain-collapse rule.  systemToday models the wall-clock new Date() the
source reads on the first-run path (where it ignores currentDate).  The
source mutates the object fields in order: the pro update reads the
original uat source, then the uat update reads the base target; the two
let bindings reproduce exactly that. -/
def updateNextCycleBranches (config : Config) (status : Status)
    (currentDate systemToday cycleDays : Int) : NextCycleBranches :=
  let dates : Int × Int :=
    match status.lastCycleDate with
    | some last =>
      let dayDiff := currentDate - last
      let days := (Int.fdiv dayDiff cycleDays) * cycleDays
      (last + days, last + days + cycleDays)
    | none => (systemToday, systemToday + cycleDays)
  let currentBranch := getBranchName status.base
  let uatSource0 := getBranchName status.uat
  let proSource0 := getBranchName status.pro
  let proSource1 := if proSource0 ≠ uatSource0 then uatSource0 else proSource0
  let uatSource1 := if uatSource0 ≠ currentBranch then currentBranch else uatSource0
  { aheadCycleDate := dates.2,
    nextCycleDate := dates.1,
    newBaseBranch := formatBranchName config (fmtDay dates.1),
    currentBranch := currentBranch,
    uatSourceBranch := uatSource1,
    proSourceBranch := proSource1 }

/-- The newState assignment at the end of createBranches (lines 1082-1091):
every slot is rewritten to its rotation target with the freshly read
commit info, and the cycle ledger advances. -/
def fullCycleNewState (status : Status) (b : NextCycleBranches)
    (baseCI uatCI proCI : Option CommitInfo) : Status :=
  { status with
    base := updateBranchStatus status.base (some b.newBaseBranch) baseCI,
    uat := updateBranchStatus status.uat b.uatSourceBranch uatCI,
    pre := updateBranchStatus status.pre b.uatSourceBranch uatCI,
    pro := updateBranchStatus status.pro b.proSourceBranch proCI,
    aheadCycleDate := some b.aheadCycleDate,
    lastCycleDate := some b.nextCycleDate }

/-- sameCommitInfo: false when either fingerprint is absent, otherwise the
hashes alone are compared. -/
def sameCommitInfo (commitInfo1 commitInfo2 : Option CommitInfo) : Bool :=
  match commitInfo1, commitInfo2 with
  | some c1, some c2 => if c1.hash = c2.hash then true else false
  | _, _ => false

/-- The four environment slot keys used by the merge sweep (JS strings). -/
inductive SlotKey where
  | base
  | uat
  | pre
  | pro
  deriving DecidableEq

/-- One work item of the off-cycle merge sweep (the fields the loop reads:
key, recorded commit fingerprint, JS fields from / to). -/
structure MergeItem where
  key : SlotKey
  commit : Option CommitInfo := none
  fromBr : Option String
  toBr : Option String
  deriving DecidableEq

/-- A call issued to the version-control backend (the observable effect
trace of a flow), plus the modelled process exit. -/
inductive BCall where
  | fetch
  | pull (branch : Option String)
  | checkout (branch : Option String)
  | latestOf (branch : Option String)
  | merge (target source : Option String)
  | push (branch : Option String)
  | mergeAbort
  | resetHard
  | createBr (source target : Option String)
  | emptyCommit
  | rebaseOp (branch onto : Option String)
  | resetOp (source target : Option String)
  | deleteBr (branch : Option String)
  deriving DecidableEq

/-- Pure description of what the git layer would report for each call: the
latest commit of a branch, whether a GitOperations.merge step returns
success, whether pulls succeed, and branch existence answers. -/
structure Backend where
  latest : String → Option CommitInfo
  mergeOk : String → String → Bool
  pullOk : String → Bool
  remoteExists : String → Bool
  localExists : String → Bool
  branchExists : String → Bool

/-- getLatestCommitInfo through a possibly-null branch name: a null branch
makes the inner checkout throw, which the source catches and turns into
null. -/
def jsLatest (backend : Backend) : Option String → Option CommitInfo
  | some b => backend.latest b
  | none => none

/-- Outcome of the non-critical gitOp.merge(to, from) step in the sweep: a
null branch name makes the wrapped command throw, which the non-critical
execute turns into success:false. -/
def mergeOkB (backend : Backend) : Option String → Option String → Bool
  | some t, some f => backend.mergeOk t f
  | _, _ => false

/-- Predicate singling out merge and push backend calls. -/
def isMergeOrPush : BCall → Bool
  | .merge _ _ => true
  | .push _ => true
  | _ => false

/-- Body of the sweep loop for one item: read the source's latest commit;
if it equals the recorded fingerprint, skip; otherwise merge and, on
success, push and re-read the latest commit to record it.  Returns the
calls issued for this slot, the success flag, and the fingerprint to
record. -/
def processItem (backend : Backend) (item : MergeItem) :
    List BCall × Bool × Option CommitInfo :=
  let commitInfo := jsLatest backend item.fromBr
  if sameCommitInfo commitInfo item.commit then
    ([BCall.latestOf item.fromBr], true, none)
  else if mergeOkB backend item.toBr item.fromBr then
    ([BCall.latestOf item.fromBr, BCall.merge item.toBr item.fromBr,
      BCall.push item.toBr, BCall.latestOf item.fromBr],
     true, jsLatest backend item.fromBr)
  else
    ([BCall.latestOf item.fromBr, BCall.merge item.toBr item.fromBr], false, none)

/-- status[item.key].commit = commitInfo. -/
def setSlotCommit (st : Status) (key : SlotKey) (ci : CommitInfo) : Status :=
  match key with
  | .base => { st with base := { st.base with commit := some ci } }
  | .uat => { st with uat := { st.uat with commit := some ci } }
  | .pre => { st with pre := { st.pre with commit := some ci } }
  | .pro => { st with pro := { st.pro with commit := some ci } }

/-- The items list built by mergeBranches: an optional ahead-of-cycle item
(when aheadCycleDate is recorded and its branch exists remotely) followed
by the four environment slots. -/
def mergeItems (config : Config) (status : Status) (backend : Backend) :
    List MergeItem :=
  (match status.aheadCycleDate with
   | some ahead =>
     let branch := formatBranchName config (fmtDay ahead)
     if backend.remoteExists branch then
       [{ key := .base, commit := extractBranchLatestCommit status.base,
          fromBr := some config.baseBranch, toBr := some branch }]
     else []
   | none => []) ++
  [{ key := .base, commit := status.base.commit,
     fromBr := some config.baseBranch, toBr := status.base.branch },
   { key := .uat, commit := status.uat.commit,
     fromBr := status.uat.branch, toBr := some config.uatBranch },
   { key := .pre, commit := status.pre.commit,
     fromBr := status.pre.branch, toBr := some config.preBranch },
   { key := .pro, commit := status.pro.commit,
     fromBr := status.pro.branch, toBr := some config.proBranch }]

/-- Result of the off-cycle merge sweep: the backend-call trace, the updated
status, and the process exit status when the flow terminated the process
(none when it returned normally). -/
structure SweepResult where
  trace : List BCall
  status : Status
  exitStatus : Option Int

/-- mergeBranches: fetch, critical pull of the base branch (a failure exits
with GIT_OPERATION_FAILED), then process every item, accumulating
per-slot failures in hasError without stopping; at the end a recorded
error runs process.exit(ERROR_CODES.MERGE_FAILED) - a key that does not
exist in ERROR_CODES, so the exit argument is undefined. -/
def mergeBranches (config : Config) (status : Status) (backend : Backend) :
    SweepResult :=
  let pre := [BCall.fetch, BCall.pull (some config.baseBranch)]
  if backend.pullOk config.baseBranch then
    let aheadPrep : List BCall :=
      match status.aheadCycleDate with
      | some ahead =>
        let b := formatBranchName config (fmtDay ahead)
        if backend.remoteExists b && !(backend.localExists b) then
          [BCall.checkout (some b)]
        else []
      | none => []
    let items := mergeItems config status backend
    let result := items.foldl
      (fun acc item =>
        let calls := (processItem backend item).1
        let ok := (processItem backend item).2.1
        let ci2 := (processItem backend item).2.2
        let st1 := match ci2 with
          | some ci => setSlotCommit acc.1 item.key ci
          | none => acc.1
        (st1, acc.2.1 ++ calls, acc.2.2 || !ok))
      (status, pre ++ aheadPrep, false)
    { trace := result.2.1, status := result.1,
      exitStatus :=
        if result.2.2 then some (nodeExitStatus (errorCode ("MERGE_FAILED")))
        else none }
  else
    { trace := pre, status := status,
      exitStatus := some (nodeExitStatus (errorCode ("GIT_OPERATION_FAILED"))) }

/-- Reported git-layer outcomes for one GitOperations.merge invocation. -/
structure MergeBehavior where
  checkoutOk : Bool := true
  remoteExists : Bool := true
  pullOk : Bool := true
  mergeThrows : Bool := false
  mergeConflict : Bool := false
  abortOk : Bool := true
  resetOk : Bool := true
  deriving DecidableEq

/-- Result of one execute-wrapped git step: completed, caught failure
(non-critical), or process exit (critical). -/
inductive ExecResult where
  | success
  | failure
  | exited (code : Int)
  deriving DecidableEq

/-- The async command inside GitOperations.merge: checkout the target, pull
it when it exists remotely, merge the source; when the merge result is
flagged failed, try merge --abort, and if the abort itself throws, hard
reset the working tree.  Returns the calls issued and whether an error
escaped the command. -/
def gitMergeCommand (beh : MergeBehavior) (branch fromBranch : String) :
    List BCall × Bool :=
  if !beh.checkoutOk then ([BCall.checkout (some branch)], true)
  else
    let pre := [BCall.checkout (some branch)] ++
      (if beh.remoteExists then [BCall.pull (some branch)] else [])
    if beh.remoteExists && !beh.pullOk then (pre, true)
    else
      let calls := pre ++ [BCall.merge (some branch) (some fromBranch)]
      if beh.mergeThrows then (calls, true)
      else if beh.mergeConflict then
        if beh.abortOk then (calls ++ [BCall.mergeAbort], false)
        else (calls ++ [BCall.mergeAbort, BCall.resetHard], !beh.resetOk)
      else (calls, false)

/-- GitOperations.execute error policy: a thrown error exits the process
for a critical step (GIT_OPERATION_FAILED) and is returned as a caught
failure otherwise. -/
def executeResult (critical : Bool) (threw : Bool) : ExecResult :=
  if threw then
    if critical then .exited (nodeExitStatus (errorCode ("GIT_OPERATION_FAILED")))
    else .failure
  else .success

/-- GitOperations.merge as observed from outside: dry-run short-circuits,
otherwise the inner command runs under the execute wrapper. -/
def gitOpsMerge (beh : MergeBehavior) (branch fromBranch : String)
    (critical dryRun : Bool) : List BCall × ExecResult :=
  if dryRun then ([], .success)
  else
    let r := gitMergeCommand beh branch fromBranch
    (r.1, executeResult critical r.2)

/-- The JS string tags of the full-cycle item list. -/
inductive CycleItemType where
  | create
  | merge
  | rebase
  | reset
  | delete
  deriving DecidableEq

/-- One entry of the full-cycle items list in createBranches. -/
structure CycleItem where
  itemType : CycleItemType
  fromBr : Option String
  toBr : String
  noFastForward : Bool
  deriving DecidableEq

/-- Placeholder item (only used as the List.getD default in statements). -/
def dummyCycleItem : CycleItem :=
  { itemType := .merge, fromBr := none, toBr := "", noFastForward := false }

/-- The createBranches items list (lines 1002-1031): the first, step-4 item
targets the new date-named base branch and merges when it already exists
remotely, otherwise creates it; its source is the recorded base slot
target status.base.branch.  Then uat, pre, pro updates. -/
def cycleItems (config : Config) (status : Status) (b : NextCycleBranches)
    (aheadBranchExists : Bool) : List CycleItem :=
  [{ itemType := if aheadBranchExists then .merge else .create,
     fromBr := status.base.branch, toBr := b.newBaseBranch,
     noFastForward := false },
   { itemType := .merge, fromBr := b.uatSourceBranch, toBr := config.uatBranch,
     noFastForward := false },
   { itemType := .merge, fromBr := b.uatSourceBranch, toBr := config.preBranch,
     noFastForward := true },
   { itemType := .merge, fromBr := b.proSourceBranch, toBr := config.proBranch,
     noFastForward := true }]

/-- branchExists through a possibly-null name (a null name is never found). -/
def jsBranchExists (backend : Backend) : Option String → Bool
  | some b => backend.branchExists b
  | none => false

/-- GitOperations.createBranch: skip entirely when the target already
exists, else checkout and pull the source, branch off it, and make one
empty marker commit so the new branch has independent history. -/
def createBranchCalls (backend : Backend) (fromBr : Option String)
    (toBr : Option String) : List BCall :=
  if jsBranchExists backend toBr then []
  else
    [BCall.checkout fromBr, BCall.pull fromBr,
     BCall.createBr fromBr toBr, BCall.emptyCommit]

/-- Dispatch of the createBranches loop body (lines 1032-1059) for one item;
every arm pushes the target afterwards.  The delete arm is dead code in
the source (it calls an undefined method) and no item ever carries it. -/
def runCycleItem (backend : Backend) (item : CycleItem) : List BCall :=
  match item.itemType with
  | .create =>
    createBranchCalls backend item.fromBr (some item.toBr) ++
      [BCall.push (some item.toBr)]
  | .merge =>
    [BCall.merge (some item.toBr) item.fromBr, BCall.push (some item.toBr)]
  | .rebase =>
    [BCall.rebaseOp (some item.toBr) item.fromBr, BCall.push (some item.toBr)]
  | .reset =>
    [BCall.resetOp item.fromBr (some item.toBr), BCall.push (some item.toBr)]
  | .delete => []

/-- Detection of the new on-disk format: the base slot is an object whose
branch field is truthy. -/
def isNewFormat (rawStatus : RawStatus) : Bool :=
  match rawStatus.base with
  | .obj (some b) _ => !(b = "")
  | _ => false

/-- New-format path of normalizeStatusFormat: an absent slot defaults to
branch null; an object slot is kept; a raw string slot is kept as-is by
the source (a falsy empty string falls back to the default), which through
the getBranchName / extractBranchLatestCommit accessors behaves as an
object with that branch and no commit. -/
def slotOrDefault : RawSlot → BranchSlot
  | .missing => {}
  | .obj b c => { branch := b, commit := c }
  | .str s => if s = "" then {} else { branch := some s }

/-- Old-format path branch extraction: rawStatus.slot || null.  A falsy
(empty) string becomes null; an object input (only possible when its
branch field was falsy, since format detection looks at base only) is
kept by the source - observationally its branch field. -/
def oldBranch : RawSlot → Option String
  | .str s => if s = "" then none else some s
  | .missing => none
  | .obj b _ => b

/-- normalizeStatusFormat: the new format keeps the slots and remembers the
full structure for saving; the old format wraps each flat value in an
object with no commit info. -/
def normalizeStatusFormat (rawStatus : RawStatus) : Status :=
  if isNewFormat rawStatus then
    { base := slotOrDefault rawStatus.base,
      uat := slotOrDefault rawStatus.uat,
      pre := slotOrDefault rawStatus.pre,
      pro := slotOrDefault rawStatus.pro,
      lastCycleDate := rawStatus.lastCycleDate,
      aheadCycleDate := rawStatus.aheadCycleDate,
      branches := rawStatus.branches,
      fullStatus := some rawStatus }
  else
    { base := { branch := oldBranch rawStatus.base },
      uat := { branch := oldBranch rawStatus.uat },
      pre := { branch := oldBranch rawStatus.pre },
      pro := { branch := oldBranch rawStatus.pro },
      lastCycleDate := rawStatus.lastCycleDate,
      aheadCycleDate := rawStatus.aheadCycleDate,
      branches := rawStatus.branches,
      fullStatus := none }

/-- Slot update on the preserved full structure: guarded by the raw slot
being truthy (missing is skipped); property assignment on a raw string
slot is a silent no-op in non-strict JS. -/
def assignSlot (raw : RawSlot) (s : BranchSlot) : RawSlot :=
  match raw with
  | .missing => .missing
  | .str str => .str str
  | .obj _ c =>
    .obj (getBranchName s)
      (match s.commit with
       | some ci => some ci
       | none => c)

/-- Save shape of one slot on the fresh-structure path of
convertToSaveFormat: an object with the branch name and, when present,
the commit info. -/
def saveSlot (s : BranchSlot) : RawSlot := .obj (getBranchName s) s.commit

/-- convertToSaveFormat: with a remembered full structure, update it in
place (truthy fields only for the dates and tracked list); without one,
always emit the object-per-slot structure. -/
def convertToSaveFormat (state : Status) : RawStatus :=
  match state.fullStatus with
  | some full =>
    { base := assignSlot full.base state.base,
      uat := assignSlot full.uat state.uat,
      pre := assignSlot full.pre state.pre,
      pro := assignSlot full.pro state.pro,
      lastCycleDate :=
        match state.lastCycleDate with
        | some d => some d
        | none => full.lastCycleDate,
      aheadCycleDate :=
        match state.aheadCycleDate with
        | some d => some d
        | none => full.aheadCycleDate,
      branches :=
        match state.branches with
        | some l => some l
        | none => full.branches }
  | none =>
    { base := saveSlot state.base,
      uat := saveSlot state.uat,
      pre := saveSlot state.pre,
      pro := saveSlot state.pro,
      lastCycleDate := state.lastCycleDate,
      aheadCycleDate := state.aheadCycleDate,
      branches := state.branches }

/-- Legacy flat slot for an optional branch name (absent or a flat string). -/
def flatSlot : Option String → RawSlot
  | some s => .str s
  | none => .missing

/-- A legacy flat status file: every slot a plain string (or absent). -/
def mkFlatRaw (b : String) (u p q : Option String) (lcd acd : Option Int)
    (br : Option (List TrackedBranch)) : RawStatus :=
  { base := .str b, uat := flatSlot u, pre := flatSlot p, pro := flatSlot q,
    lastCycleDate := lcd, aheadCycleDate := acd, branches := br }

/-- removeOldBranches: gated only on autoRemoveBranches and the presence of
the tracked list; branchRetentionCycles || 3 turns a falsy zero into 3;
tracked branches older than now minus retention are deleted when they
still exist, and the list is pruned to the survivors. -/
def removeOldBranches (config : Config) (status : Status) (now : Int)
    (branchExists : String → Bool) : List BCall × Status :=
  if config.autoRemoveBranches && status.branches.isSome then
    let l := status.branches.getD []
    let retentionCycles :=
      if config.branchRetentionCycles = 0 then 3 else config.branchRetentionCycles
    let retentionTime := retentionCycles * config.cycleDays
    let cutoffDate := now - retentionTime
    let branchesToRemove := l.filter (fun bi => decide (bi.time < cutoffDate))
    let calls := branchesToRemove.filterMap
      (fun bi => if branchExists bi.branch then some (BCall.deleteBr (some bi.branch))
                 else none)
    (calls, { status with
              branches := some (l.filter (fun bi => decide (cutoffDate ≤ bi.time))) })
  else ([], status)

/-- Phase order of the run command handler: a full cycle runs create, the
merge sweep and then retention; an off-cycle day runs the sweep only.
Every phase exits the process on critical failure, so a later phase runs
only after the earlier ones succeeded. -/
def runCommandPhases (config : Config) (status : Status) (currentDate : Int) :
    List String :=
  if isExecutionDay currentDate config.cycleDays status.lastCycleDate then
    ["createBranches", "mergeBranches", "removeOldBranches", "saveStatusFile"]
  else
    ["mergeBranches", "saveStatusFile"]

/-- Default configuration fixture. -/
def cfgEx : Config := {}

/-- Status fixture for the chain-collapse witness: pro lags behind uat,
which lags behind base. -/
def stC1 : Status :=
  { base := { branch := some ("2025-09-15") },
    uat := { branch := some ("2025-09-01") },
    pre := { branch := some ("2025-09-01") },
    pro := { branch := some ("2025-08-18") } }

/-- A latest commit that matches the recorded fingerprint in hash only. -/
def ciW : CommitInfo :=
  { hash := "H", date := "later", message := "different message", refs := "",
    body := "", author_name := "someone else", author_email := "" }

/-- The recorded fingerprint with the same hash. -/
def recW : CommitInfo := mkCommit ("H")

/-- Status fixture whose uat slot records the fingerprint recW. -/
def st2w : Status :=
  { base := { branch := some ("b-target") },
    uat := { branch := some ("u"), commit := some recW },
    pre := { branch := some ("p") },
    pro := { branch := some ("q") } }

/-- Backend fixture: branch u is unchanged up to hash, everything succeeds. -/
def b2w : Backend :=
  { latest := fun br => if br = "u" then some ciW else some (mkCommit ("x/" ++ br)),
    mergeOk := fun _ _ => true,
    pullOk := fun _ => true,
    remoteExists := fun _ => false,
    localExists := fun _ => false,
    branchExists := fun _ => true }

/-- The uat sweep item of st2w. -/
def itemW : MergeItem :=
  { key := .uat, commit := some recW, fromBr := some ("u"), toBr := some ("uat") }

/-- Sweep item with no recorded fingerprint. -/
def itemA : MergeItem :=
  { key := .base, commit := none, fromBr := some ("s"), toBr := some ("t") }

/-- Sweep item whose source latest commit cannot be read. -/
def itemB : MergeItem :=
  { key := .pro, commit := some recW, fromBr := none, toBr := some ("t2") }

/-- Status fixture for the failure-aggregation run. -/
def st3 : Status :=
  { base := { branch := some ("2025-09-01") },
    uat := { branch := some ("u-src") },
    pre := { branch := some ("p-src") },
    pro := { branch := some ("pr-src") } }

/-- Backend fixture where exactly the merge into uat fails. -/
def backend3 : Backend :=
  { latest := fun br => some (mkCommit ("h/" ++ br)),
    mergeOk := fun t _ => t != "uat",
    pullOk := fun _ => true,
    remoteExists := fun _ => false,
    localExists := fun _ => false,
    branchExists := fun _ => true }

/-- Merge behavior fixture: conflict whose abort fails, reset succeeds. -/
def behW : MergeBehavior := { mergeConflict := true, abortOk := false }

/-- Config / status / targets fixtures for the full-cycle step 4. -/
def cfg5 : Config := {}

/-- Status whose base slot records a previous date branch. -/
def st5 : Status := { base := { branch := some ("2025-09-01") } }

/-- Rotation targets naming the new date branch. -/
def b5 : NextCycleBranches :=
  { aheadCycleDate := 0, nextCycleDate := 0, newBaseBranch := "2025-09-15",
    currentBranch := some ("2025-09-01"), uatSourceBranch := some ("u"),
    proSourceBranch := some ("q") }

/-- Backend on which no branch exists yet (create path). -/
def backendNoBranch : Backend := { b2w with branchExists := fun _ => false }

/-- First-run fixtures for the custom-date divergence. -/
def cfgC6 : Config := {}

/-- Empty first-run status (no lastCycleDate). -/
def stC6 : Status := {}

/-- A concrete legacy flat status file. -/
def flat7 : RawStatus :=
  mkFlatRaw ("2025-09-15") (some ("2025-09-01")) (some ("2025-08-18"))
    (some ("2025-08-04")) (some 1) (some 2) none

/-- Load of a flat status file. -/
def flatLoad (b : String) (u p q : Option String) (lcd acd : Option Int)
    (br : Option (List TrackedBranch)) : Status :=
  normalizeStatusFormat (mkFlatRaw b u p q lcd acd br)

/-- Save of a loaded flat status file. -/
def flatSaved (b : String) (u p q : Option String) (lcd acd : Option Int)
    (br : Option (List TrackedBranch)) : RawStatus :=
  convertToSaveFormat (flatLoad b u p q lcd acd br)

/-- Reload of the saved form. -/
def flatReload (b : String) (u p q : Option String) (lcd acd : Option Int)
    (br : Option (List TrackedBranch)) : Status :=
  normalizeStatusFormat (flatSaved b u p q lcd acd br)

/-- Retention fixture: auto removal on, empty prefix. -/
def cfg8 : Config := { autoRemoveBranches := true, branchPrefix := "" }

/-- Retention fixture: auto removal off. -/
def cfg8f : Config := { autoRemoveBranches := false }

/-- Status tracking one stale date branch. -/
def st8 : Status := { branches := some [{ branch := "old-branch", time := 0 }] }

/-- Branch-existence oracle answering true everywhere. -/
def exAllTrue : String → Bool := fun _ => true

/-- The truthiness filter on branch names is idempotent. -/
theorem jsBranchVal_idem (o : Option String) :
    jsBranchVal (jsBranchVal o) = jsBranchVal o := by
  cases o with
  | none => rfl
  | some b => by_cases h : b = "" <;> simp [jsBranchVal, h]

/-- getBranchName never returns a falsy name, so filtering it again is the
identity. -/
theorem jsBranchVal_getBranchName (s : BranchSlot) :
    jsBranchVal (getBranchName s) = getBranchName s := by
  simp [getBranchName, jsBranchVal_idem]

/-- updateBranchStatus always stores the new branch name, on every path. -/
theorem updateBranchStatus_branch (s : BranchSlot) (n : Option String)
    (ci : Option CommitInfo) : (updateBranchStatus s n ci).branch = n := by
  cases h : s.branch with
  | none => simp [updateBranchStatus, h]
  | some b => by_cases hb : b = "" <;> simp [updateBranchStatus, h, hb]

/-- The observable branch name of an updated slot is the filtered new name. -/
theorem getBranchName_updateBranchStatus (s : BranchSlot) (n : Option String)
    (ci : Option CommitInfo) :
    getBranchName (updateBranchStatus s n ci) = jsBranchVal n := by
  simp [getBranchName, updateBranchStatus_branch]

/-- The pro source after the chain-collapse rule. -/
theorem updateNextCycleBranches_pro (config : Config) (status : Status)
    (currentDate systemToday cycleDays : Int) :
    (updateNextCycleBranches config status currentDate systemToday
        cycleDays).proSourceBranch =
      if getBranchName status.pro ≠ getBranchName status.uat then
        getBranchName status.uat
      else getBranchName status.pro := rfl

/-- The uat source after the chain-collapse rule. -/
theorem updateNextCycleBranches_uat (config : Config) (status : Status)
    (currentDate systemToday cycleDays : Int) :
    (updateNextCycleBranches config status currentDate systemToday
        cycleDays).uatSourceBranch =
      if getBranchName status.uat ≠ getBranchName status.base then
        getBranchName status.base
      else getBranchName status.uat := rfl

/-- Claim C1: chain-collapse on full-cycle rotation.  For every loaded
status, when the recorded pro target differs from the recorded uat target
the rotated pro slot's target is the pre-rotation uat target, and when the
recorded uat target differs from the recorded base target the rotated uat
and pre slots' target is the pre-rotation base target. -/
theorem updateNextCycleBranches_chain_collapse
    (config : Config) (status : Status) (currentDate systemToday cycleDays : Int)
    (baseCI uatCI proCI : Option CommitInfo) :
    (getBranchName status.pro ≠ getBranchName status.uat →
      getBranchName (fullCycleNewState status
          (updateNextCycleBranches config status currentDate systemToday cycleDays)
          baseCI uatCI proCI).pro = getBranchName status.uat) ∧
    (getBranchName status.uat ≠ getBranchName status.base →
      getBranchName (fullCycleNewState status
          (updateNextCycleBranches config status currentDate systemToday cycleDays)
          baseCI uatCI proCI).uat = getBranchName status.base ∧
      getBranchName (fullCycleNewState status
          (updateNextCycleBranches config status currentDate systemToday cycleDays)
          baseCI uatCI proCI).pre = getBranchName status.base) := by
  constructor
  · intro h
    have hp : (fullCycleNewState status
        (updateNextCycleBranches config status currentDate systemToday cycleDays)
        baseCI uatCI proCI).pro =
        updateBranchStatus status.pro
          (updateNextCycleBranches config status currentDate systemToday
            cycleDays).proSourceBranch proCI := rfl
    rw [hp, getBranchName_updateBranchStatus, updateNextCycleBranches_pro,
      if_pos h, jsBranchVal_getBranchName]
  · intro h
    constructor
    · have hu : (fullCycleNewState status
          (updateNextCycleBranches config status currentDate systemToday cycleDays)
          baseCI uatCI proCI).uat =
          updateBranchStatus status.uat
            (updateNextCycleBranches config status currentDate systemToday
              cycleDays).uatSourceBranch uatCI := rfl
      rw [hu, getBranchName_updateBranchStatus, updateNextCycleBranches_uat,
        if_pos h, jsBranchVal_getBranchName]
    · have hq : (fullCycleNewState status
          (updateNextCycleBranches config status currentDate systemToday cycleDays)
          baseCI uatCI proCI).pre =
          updateBranchStatus status.pre
            (updateNextCycleBranches config status currentDate systemToday
              cycleDays).uatSourceBranch uatCI := rfl
      rw [hq, getBranchName_updateBranchStatus, updateNextCycleBranches_uat,
        if_pos h, jsBranchVal_getBranchName]

/-- Claim C1 witness: the chain-collapse equations at a concrete status in
which pro, uat and base record three distinct targets. -/
theorem updateNextCycleBranches_chain_collapse_witness :
    getBranchName (fullCycleNewState stC1
        (updateNextCycleBranches cfgEx stC1 0 0 14) none none none).pro =
      getBranchName stC1.uat ∧
    (getBranchName (fullCycleNewState stC1
        (updateNextCycleBranches cfgEx stC1 0 0 14) none none none).uat =
      getBranchName stC1.base ∧
    getBranchName (fullCycleNewState stC1
        (updateNextCycleBranches cfgEx stC1 0 0 14) none none none).pre =
      getBranchName stC1.base) :=
  ⟨(updateNextCycleBranches_chain_collapse cfgEx stC1 0 0 14 none none none).1
      (by decide),
   (updateNextCycleBranches_chain_collapse cfgEx stC1 0 0 14 none none none).2
      (by decide)⟩

/-- Claim C9: for every lastCycleDate (present or absent), positive cycle
length and reference day, the computed boundary satisfies
current + cycleDays = next. -/
theorem calculateCycleDateInfo_current_plus_cycle (config : Config)
    (status : Status) (currentDate cycleDays : Int) (h : 0 < cycleDays) :
    (calculateCycleDateInfo config status currentDate cycleDays).1 + cycleDays =
      (calculateCycleDateInfo config status currentDate cycleDays).2 := by
  cases hl : status.lastCycleDate <;> simp [calculateCycleDateInfo, hl]

/-- Claim C9 witness: the boundary arithmetic at a concrete status with no
recorded cycle and cycle length 14. -/
theorem calculateCycleDateInfo_current_plus_cycle_witness :
    0 < (14 : Int) ∧
    (calculateCycleDateInfo cfgEx stC1 5 14).1 + 14 =
      (calculateCycleDateInfo cfgEx stC1 5 14).2 :=
  ⟨by decide, calculateCycleDateInfo_current_plus_cycle cfgEx stC1 5 14 (by decide)⟩

/-- Claim C2: in the off-cycle sweep, a slot whose source ref's latest
commit hash equals the hash of the slot's recorded fingerprint issues no
merge and no push backend call - the slot is skipped. -/
theorem mergeSweep_fingerprint_skip (config : Config) (status : Status)
    (backend : Backend) (item : MergeItem) (ci rc : CommitInfo)
    (hmem : item ∈ mergeItems config status backend)
    (h1 : jsLatest backend item.fromBr = some ci)
    (h2 : item.commit = some rc)
    (h3 : ci.hash = rc.hash) :
    ((processItem backend item).1.all (fun c => !(isMergeOrPush c))) = true := by
  have hs : sameCommitInfo (jsLatest backend item.fromBr) item.commit = true := by
    rw [h1, h2]; simp [sameCommitInfo, h3]
  simp [processItem, hs, isMergeOrPush]

/-- Claim C2 witness: the uat slot of a concrete sweep is skipped when the
hashes agree even though every other fingerprint field differs. -/
theorem mergeSweep_fingerprint_skip_witness :
    ((processItem b2w itemW).1.all (fun c => !(isMergeOrPush c))) = true :=
  mergeSweep_fingerprint_skip cfgEx st2w b2w itemW ciW recW (by decide)
    (by decide) rfl rfl

/-- A sweep slot whose fingerprint comparison fails always attempts the
merge, whatever the merge outcome is. -/
theorem processItem_not_skipped (backend : Backend) (item : MergeItem)
    (hs : sameCommitInfo (jsLatest backend item.fromBr) item.commit = false) :
    BCall.merge item.toBr item.fromBr ∈ (processItem backend item).1 := by
  simp only [processItem]
  rw [if_neg (by simp [hs])]
  split <;> simp

/-- Claim C10: sameCommitInfo is true exactly when both fingerprints are
present with equal hash fields (all other fields are ignored); hence a
slot with no recorded fingerprint, or whose source's latest commit cannot
be read, is never skipped and its merge is attempted. -/
theorem sameCommitInfo_hash_only :
    (∀ a b : Option CommitInfo, sameCommitInfo a b = true ↔
        ∃ x y, a = some x ∧ b = some y ∧ x.hash = y.hash) ∧
    (∀ (backend : Backend) (item : MergeItem), item.commit = none →
        BCall.merge item.toBr item.fromBr ∈ (processItem backend item).1) ∧
    (∀ (backend : Backend) (item : MergeItem),
        jsLatest backend item.fromBr = none →
        BCall.merge item.toBr item.fromBr ∈ (processItem backend item).1) := by
  refine ⟨?_, ?_, ?_⟩
  · intro a b
    cases a with
    | none => simp [sameCommitInfo]
    | some x =>
      cases b with
      | none => simp [sameCommitInfo]
      | some y => by_cases h : x.hash = y.hash <;> simp [sameCommitInfo, h]
  · intro backend item h
    refine processItem_not_skipped backend item ?_
    rw [h]; cases jsLatest backend item.fromBr <;> simp [sameCommitInfo]
  · intro backend item h
    refine processItem_not_skipped backend item ?_
    rw [h]; cases hc : item.commit <;> simp [sameCommitInfo]

/-- Claim C10 witness: the merge is attempted for a slot with no recorded
fingerprint and for a slot whose source latest commit is unreadable. -/
theorem sameCommitInfo_hash_only_witness :
    BCall.merge (some ("t")) (some ("s")) ∈ (processItem b2w itemA).1 ∧
    BCall.merge (some ("t2")) none ∈ (processItem b2w itemB).1 :=
  ⟨sameCommitInfo_hash_only.2.1 b2w itemA rfl,
   sameCommitInfo_hash_only.2.2 b2w itemB rfl⟩

/-- Claim C3 (code bug): in a sweep where the merge into uat fails, the pre
and pro slots are still processed (their merges are attempted), yet the
flow terminates through process.exit(ERROR_CODES.MERGE_FAILED) - a key
that does not exist in ERROR_CODES - so the process exit status is 0, not
the nonzero failure the claim (and the tool's own error-code table)
require. -/
theorem mergeSweep_continues_but_exit_status_zero :
    BCall.merge (some ("pre")) (some ("p-src")) ∈
      (mergeBranches cfgEx st3 backend3).trace ∧
    BCall.merge (some ("pro")) (some ("pr-src")) ∈
      (mergeBranches cfgEx st3 backend3).trace ∧
    (mergeBranches cfgEx st3 backend3).exitStatus = some 0 ∧
    errorCode ("MERGE_FAILED") = none := by decide

/-- Claim C4: a merge whose result is flagged as conflicted always attempts
merge --abort; when the abort itself fails a hard reset follows; and in
both of those recovery cases the merge step completes as a success rather
than escaping as an error. -/
theorem gitOpsMerge_conflict_recovery (beh : MergeBehavior)
    (branch fromBranch : String) (critical : Bool)
    (hco : beh.checkoutOk = true) (hp : beh.pullOk = true)
    (hnt : beh.mergeThrows = false) (hc : beh.mergeConflict = true) :
    BCall.mergeAbort ∈ (gitOpsMerge beh branch fromBranch critical false).1 ∧
    (beh.abortOk = false →
      BCall.resetHard ∈ (gitOpsMerge beh branch fromBranch critical false).1) ∧
    ((beh.abortOk = true ∨ beh.resetOk = true) →
      (gitOpsMerge beh branch fromBranch critical false).2 = ExecResult.success) := by
  cases hre : beh.remoteExists <;> cases hab : beh.abortOk <;>
    cases hrs : beh.resetOk <;>
      simp [gitOpsMerge, gitMergeCommand, executeResult, hco, hp, hnt, hc,
        hre, hab, hrs]

/-- Claim C4 witness: a conflicted merge whose abort fails issues the abort
and the hard reset and still returns success. -/
theorem gitOpsMerge_conflict_recovery_witness :
    BCall.mergeAbort ∈ (gitOpsMerge behW ("a") ("b") false false).1 ∧
    BCall.resetHard ∈ (gitOpsMerge behW ("a") ("b") false false).1 ∧
    (gitOpsMerge behW ("a") ("b") false false).2 = ExecResult.success :=
  ⟨(gitOpsMerge_conflict_recovery behW ("a") ("b") false rfl rfl rfl rfl).1,
   (gitOpsMerge_conflict_recovery behW ("a") ("b") false rfl rfl rfl rfl).2.1 rfl,
   (gitOpsMerge_conflict_recovery behW ("a") ("b") false rfl rfl rfl rfl).2.2
     (Or.inr rfl)⟩

/-- Claim C5 counterexample: when the new date-named base branch exists
remotely, the step-4 merge takes its source from the recorded base slot
target (status.base.branch, here 2025-09-01), not from the root base
branch (config.baseBranch = base): no merge from base is issued. -/
theorem createBranches_step4_source_not_baseBranch :
    BCall.merge (some ("2025-09-15")) (some ("2025-09-01")) ∈
      runCycleItem b2w ((cycleItems cfg5 st5 b5 true).getD 0 dummyCycleItem) ∧
    BCall.merge (some ("2025-09-15")) (some ("base")) ∉
      runCycleItem b2w ((cycleItems cfg5 st5 b5 true).getD 0 dummyCycleItem) ∧
    cfg5.baseBranch = "base" := by decide

/-- Claim C5 amended: in every full-cycle run, if the new date-named base
branch already exists remotely the flow merges the recorded base slot's
target branch (status.base.branch) into it and pushes; otherwise it runs
the create step from the recorded base target: when the branch does not
yet exist locally or remotely it is branched off with a single empty
marker commit, while a branch that already exists (e.g. locally from an
interrupted earlier run) makes createBranch skip creation and the marker
commit entirely; in either sub-case the branch is then pushed. -/
theorem createBranches_step4_create_or_merge (config : Config) (status : Status)
    (b : NextCycleBranches) (backend : Backend) (aheadBranchExists : Bool) :
    (aheadBranchExists = true →
      ((cycleItems config status b aheadBranchExists).getD 0
          dummyCycleItem).itemType = CycleItemType.merge ∧
      runCycleItem backend ((cycleItems config status b aheadBranchExists).getD 0
          dummyCycleItem) =
        [BCall.merge (some b.newBaseBranch) status.base.branch,
         BCall.push (some b.newBaseBranch)]) ∧
    (aheadBranchExists = false →
      ((cycleItems config status b aheadBranchExists).getD 0
          dummyCycleItem).itemType = CycleItemType.create ∧
      (backend.branchExists b.newBaseBranch = false →
        runCycleItem backend ((cycleItems config status b aheadBranchExists).getD 0
            dummyCycleItem) =
          [BCall.checkout status.base.branch, BCall.pull status.base.branch,
           BCall.createBr status.base.branch (some b.newBaseBranch),
           BCall.emptyCommit, BCall.push (some b.newBaseBranch)]) ∧
      (backend.branchExists b.newBaseBranch = true →
        runCycleItem backend ((cycleItems config status b aheadBranchExists).getD 0
            dummyCycleItem) =
          [BCall.push (some b.newBaseBranch)])) := by
  constructor
  · intro h
    subst h
    simp [cycleItems, runCycleItem, List.getD]
  · intro h
    subst h
    refine ⟨by simp [cycleItems, List.getD], ?_, ?_⟩
    · intro hbe
      simp [cycleItems, runCycleItem, createBranchCalls, jsBranchExists, hbe,
        List.getD]
    · intro hbe
      simp [cycleItems, runCycleItem, createBranchCalls, jsBranchExists, hbe,
        List.getD]

/-- Claim C5 amended witness: the exact step-4 traces on concrete fixtures,
for the existing-remotely merge case, for the fresh create case, and for
the already-exists skip sub-case. -/
theorem createBranches_step4_create_or_merge_witness :
    runCycleItem backendNoBranch ((cycleItems cfg5 st5 b5 false).getD 0
        dummyCycleItem) =
      [BCall.checkout st5.base.branch, BCall.pull st5.base.branch,
       BCall.createBr st5.base.branch (some b5.newBaseBranch),
       BCall.emptyCommit, BCall.push (some b5.newBaseBranch)] ∧
    runCycleItem b2w ((cycleItems cfg5 st5 b5 false).getD 0 dummyCycleItem) =
      [BCall.push (some b5.newBaseBranch)] ∧
    runCycleItem b2w ((cycleItems cfg5 st5 b5 true).getD 0 dummyCycleItem) =
      [BCall.merge (some b5.newBaseBranch) st5.base.branch,
       BCall.push (some b5.newBaseBranch)] :=
  ⟨(((createBranches_step4_create_or_merge cfg5 st5 b5 backendNoBranch false).2
      rfl).2.1 rfl),
   (((createBranches_step4_create_or_merge cfg5 st5 b5 b2w false).2
      rfl).2.2 rfl),
   ((createBranches_step4_create_or_merge cfg5 st5 b5 b2w true).1 rfl).2⟩

/-- Claim C6 (code bug): on a first run (no recorded lastCycleDate) with a
supplied reference day 10 while the system wall-clock day is 11, the
full-cycle flow names the new base branch after the system day (11), not
after the prefix-formatted cycleBoundary.current computed from the
supplied day (10) as the claim and the --date documentation state. -/
theorem updateNextCycleBranches_first_run_ignores_supplied_date :
    (updateNextCycleBranches cfgC6 stC6 10 11 14).newBaseBranch ≠
      formatBranchName cfgC6 (fmtDay (calculateCycleDateInfo cfgC6 stC6 10 14).1) ∧
    (updateNextCycleBranches cfgC6 stC6 10 11 14).newBaseBranch =
      formatBranchName cfgC6 (fmtDay 11) := by decide

/-- Claim C7 counterexample: loading the concrete legacy flat status flat7
and saving it does not reproduce the flat shape - the base slot is written
back as an object, not as the original plain string. -/
theorem flat_status_not_saved_flat :
    convertToSaveFormat (normalizeStatusFormat flat7) ≠ flat7 ∧
    (convertToSaveFormat (normalizeStatusFormat flat7)).base =
      RawSlot.obj (some ("2025-09-15")) none ∧
    flat7.base = RawSlot.str ("2025-09-15") := by decide

/-- A truthy (non-empty) branch name passes the truthiness filter. -/
theorem jsBranchVal_some_ne (b : String) (hb : b ≠ "") :
    jsBranchVal (some b) = some b := by
  simp [jsBranchVal, hb]

/-- Claim C7 amended: loading a legacy flat status and saving it writes the
nested object-per-slot shape carrying the same branch names and no commit
info (deterministically lossy), and reloading that save reproduces the
same in-memory branch names and cycle dates. -/
theorem flat_status_roundtrip_upgraded (b : String) (hb : b ≠ "")
    (u p q : Option String) (lcd acd : Option Int)
    (br : Option (List TrackedBranch)) :
    (flatSaved b u p q lcd acd br).base = RawSlot.obj (some b) none ∧
    (flatSaved b u p q lcd acd br).uat =
      RawSlot.obj (getBranchName (flatLoad b u p q lcd acd br).uat) none ∧
    (flatSaved b u p q lcd acd br).pre =
      RawSlot.obj (getBranchName (flatLoad b u p q lcd acd br).pre) none ∧
    (flatSaved b u p q lcd acd br).pro =
      RawSlot.obj (getBranchName (flatLoad b u p q lcd acd br).pro) none ∧
    (flatSaved b u p q lcd acd br).lastCycleDate = lcd ∧
    (flatSaved b u p q lcd acd br).aheadCycleDate = acd ∧
    (flatSaved b u p q lcd acd br).branches = br ∧
    getBranchName (flatReload b u p q lcd acd br).base =
      getBranchName (flatLoad b u p q lcd acd br).base ∧
    getBranchName (flatReload b u p q lcd acd br).uat =
      getBranchName (flatLoad b u p q lcd acd br).uat ∧
    getBranchName (flatReload b u p q lcd acd br).pre =
      getBranchName (flatLoad b u p q lcd acd br).pre ∧
    getBranchName (flatReload b u p q lcd acd br).pro =
      getBranchName (flatLoad b u p q lcd acd br).pro ∧
    (flatReload b u p q lcd acd br).lastCycleDate = lcd ∧
    (flatReload b u p q lcd acd br).aheadCycleDate = acd := by
  refine ⟨?_, ?_, ?_, ?_, ?_, ?_, ?_, ?_, ?_, ?_, ?_, ?_, ?_⟩ <;>
    simp [flatSaved, flatReload, flatLoad, mkFlatRaw, normalizeStatusFormat,
      isNewFormat, convertToSaveFormat, saveSlot, slotOrDefault, oldBranch,
      getBranchName, jsBranchVal_idem, jsBranchVal_some_ne b hb, hb]

/-- Claim C7 amended witness: the upgraded save shape of the base slot at a
concrete flat status. -/
theorem flat_status_roundtrip_upgraded_witness :
    (flatSaved ("2025-09-15") (some ("2025-09-01")) none none none none
        none).base = RawSlot.obj (some ("2025-09-15")) none :=
  (flat_status_roundtrip_upgraded ("2025-09-15") (by decide)
    (some ("2025-09-01")) none none none none none).1

/-- Claim C8 counterexample: with autoRemoveBranches true and an empty
branchPrefix, the retention sweep still attempts the deletion of a stale
tracked branch - the prefix plays no role in the gating. -/
theorem removeOldBranches_empty_prefix_deletes :
    cfg8.branchPrefix = "" ∧ cfg8.autoRemoveBranches = true ∧
    BCall.deleteBr (some ("old-branch")) ∈
      (removeOldBranches cfg8 st8 100 exAllTrue).1 := by decide

/-- Claim C8 amended: the retention sweep attempts deletions only when
autoRemoveBranches is true and a tracked-branch list is present, and it is
invoked only on the full-cycle (execution-day) path of the run flow after
its earlier phases succeed; the configured branchPrefix has no influence
on its behavior. -/
theorem removeOldBranches_gating (config : Config) (status : Status) (now : Int)
    (branchExists : String → Bool) (currentDate : Int) :
    ((config.autoRemoveBranches = false ∨ status.branches = none) →
      (removeOldBranches config status now branchExists).1 = []) ∧
    removeOldBranches config status now branchExists =
      removeOldBranches { config with branchPrefix := "" } status now
        branchExists ∧
    ("removeOldBranches" ∈ runCommandPhases config status currentDate ↔
      isExecutionDay currentDate config.cycleDays status.lastCycleDate = true) := by
  refine ⟨?_, rfl, ?_⟩
  · rintro (h | h) <;> simp [removeOldBranches, h]
  · cases he : isExecutionDay currentDate config.cycleDays status.lastCycleDate <;>
      simp [runCommandPhases, he]

/-- Claim C8 amended witness: with auto removal off, no deletion is
attempted. -/
theorem removeOldBranches_gating_witness :
    (removeOldBranches cfg8f st8 100 exAllTrue).1 = [] :=
  (removeOldBranches_gating cfg8f st8 100 exAllTrue 0).1 (Or.inl rfl)
